import Mathlib

/-!
Verification of the CDC (change data capture) replication pipeline.

The development shallowly embeds the pipeline of this repository:
  * src/employee.py   — the CDCRecord wire model and its JSON serialization,
  * src/consumer.py   — the apply engine (CDCProcessor) that folds change
    events into the destination employees table,
  * src/producer.py   — the log tailer (CDCDataHandler.get_new_cdc_records)
    that scans the emp_cdc table past a watermark,
  * src/db_setup.py   — the trigger (employee_cdc_trigger_func) that appends
    one emp_cdc row per mutation of the source employees table.

Replica and source table states are functions from the integer employee key
to an optional row.  Machine integers of the schema (INT, SERIAL) are modelled
as Int; VARCHAR/DATE columns as String, with a NULL date modelled as
Option String.
-/

/-- A CDC record as defined by class CDCRecord in src/employee.py: the
emp_cdc row content plus the action tag.  The dob field is a string;
the producer maps a NULL date to the empty string. -/
structure CDCRecord where
  cdc_id : Int
  emp_id : Int
  first_name : String
  last_name : String
  dob : String
  city : String
  salary : Int
  action : String
deriving DecidableEq, Repr

/-- One row of an employees table (source db1 or destination db2), without
the key: first_name, last_name, dob (NULL allowed), city, salary, as created
by CREATE_EMPLOYEES_TABLE in src/db_setup.py. -/
structure EmployeeRow where
  first_name : String
  last_name : String
  dob : Option String
  city : String
  salary : Int
deriving DecidableEq, Repr

/-- A table keyed by emp_id: the destination employees table the consumer
mutates, and also the source employees table. -/
def Table : Type := Int → Option EmployeeRow

/-- The empty table: no employee rows. -/
def emptyTable : Table := fun _ => none

/-- The row written for a record: the VALUES of the INSERT / SET of the
UPDATE in src/consumer.py, where the dob parameter is
`record.dob if record.dob else None`, i.e. NULL when the string is empty. -/
def rowOf (r : CDCRecord) : EmployeeRow :=
  { first_name := r.first_name
    last_name := r.last_name
    dob := if r.dob = "" then none else some r.dob
    city := r.city
    salary := r.salary }

/-- CDCProcessor._handle_insert (src/consumer.py lines 126-145):
INSERT ... ON CONFLICT (emp_id) DO UPDATE SET all attribute columns —
an upsert that writes rowOf r at key r.emp_id whether or not a row exists. -/
def handle_insert (db : Table) (r : CDCRecord) : Table :=
  fun k => if k = r.emp_id then some (rowOf r) else db k

/-- CDCProcessor._handle_update (src/consumer.py lines 147-167):
UPDATE employees SET ... WHERE emp_id = r.emp_id; if cur.rowcount = 0
(no row with that key) it falls back to _handle_insert. -/
def handle_update (db : Table) (r : CDCRecord) : Table :=
  match db r.emp_id with
  | some _ => fun k => if k = r.emp_id then some (rowOf r) else db k
  | none => handle_insert db r

/-- CDCProcessor._handle_delete (src/consumer.py lines 169-181):
DELETE FROM employees WHERE emp_id = r.emp_id; rowcount 0 only changes
the log line printed, not the table. -/
def handle_delete (db : Table) (r : CDCRecord) : Table :=
  fun k => if k = r.emp_id then none else db k

/-- CDCProcessor.process_message (src/consumer.py lines 93-124): dispatch on
the action tag; an unknown action only prints and leaves the table alone. -/
def process_message (db : Table) (r : CDCRecord) : Table :=
  if r.action = "INSERT" then handle_insert db r
  else if r.action = "UPDATE" then handle_update db r
  else if r.action = "DELETE" then handle_delete db r
  else db

/-- Folding the apply engine over a delivered stream of events, in delivery
order (the consumer loop of CDCConsumer.consume_cdc handing each message to
process_message). -/
def applyAll (db : Table) (msgs : List CDCRecord) : Table :=
  msgs.foldl process_message db

/-- The action tags the engine recognizes. -/
def recognized (r : CDCRecord) : Prop :=
  r.action = "INSERT" ∨ r.action = "UPDATE" ∨ r.action = "DELETE"

instance (r : CDCRecord) : Decidable (recognized r) := by
  unfold recognized; infer_instance

/-- Source-table transition captured by employee_cdc_trigger_func
(src/db_setup.py lines 47-67): when the emp_cdc row r was logged, the source
employees table had just gained row NEW (for INSERT/UPDATE, with the NEW
values recorded in r) or lost the row at OLD.emp_id (for DELETE). -/
def source_apply (db : Table) (r : CDCRecord) : Table :=
  if r.action = "INSERT" ∨ r.action = "UPDATE" then
    fun k => if k = r.emp_id then some (rowOf r) else db k
  else if r.action = "DELETE" then
    fun k => if k = r.emp_id then none else db k
  else db

/-- The source employees table after the whole change log, replayed in
log order. -/
def sourceAll (db : Table) (log : List CDCRecord) : Table :=
  log.foldl source_apply db

/-- The sub-stream of events for one entity key (the events the partition of
key k receives, in stream order). -/
def keyFilter (k : Int) (l : List CDCRecord) : List CDCRecord :=
  l.filter (fun r => r.emp_id = k)

/-- Delivery of a per-key stream consistent with the original per-key order:
the delivered list is the original list with each element delivered one or
more consecutive times (at-least-once delivery preserving order). -/
inductive Covers : List CDCRecord → List CDCRecord → Prop
  | nil : Covers [] []
  | dup (a : CDCRecord) {d s : List CDCRecord} :
      Covers d (a :: s) → Covers (a :: d) (a :: s)
  | step (a : CDCRecord) {d s : List CDCRecord} :
      Covers d s → Covers (a :: d) (a :: s)

/-! ## The log tailer (src/producer.py) -/

/-- One row of the emp_cdc change-log table (CREATE_CDC_TABLE in
src/db_setup.py): cdc_id SERIAL PRIMARY KEY, the employee columns (dob DATE
may be NULL), and the action tag. -/
structure CdcRow where
  cdc_id : Int
  emp_id : Int
  first_name : String
  last_name : String
  dob : Option String
  city : String
  salary : Int
  action : String
deriving DecidableEq, Repr

/-- The CDCRecord the producer loop builds from a fetched row
(src/producer.py lines 89-99): every column is copied, with
`dob=str(row[4]) if row[4] else an empty string` turning a NULL date into
the empty string. -/
def rowToRecord (row : CdcRow) : CDCRecord :=
  { cdc_id := row.cdc_id
    emp_id := row.emp_id
    first_name := row.first_name
    last_name := row.last_name
    dob := match row.dob with
           | some d => d
           | none => ""
    city := row.city
    salary := row.salary
    action := row.action }

/-- Row order used by the ORDER BY cdc_id ASC clause. -/
def byCdcId (a b : CdcRow) : Prop := a.cdc_id ≤ b.cdc_id

instance : DecidableRel byCdcId := fun a b => by
  unfold byCdcId; infer_instance

instance : IsTotal CdcRow byCdcId :=
  ⟨fun a b => le_total a.cdc_id b.cdc_id⟩

instance : IsTrans CdcRow byCdcId :=
  ⟨fun _ _ _ hab hbc => le_trans hab hbc⟩

/-- The result set of the query in CDCDataHandler.get_new_cdc_records:
SELECT ... FROM emp_cdc WHERE cdc_id > last_offset ORDER BY cdc_id ASC. -/
def sqlNewRows (table : List CdcRow) (last_offset : Int) : List CdcRow :=
  (table.filter (fun row => last_offset < row.cdc_id)).insertionSort byCdcId

/-- One iteration of the fetch loop (src/producer.py lines 89-104): build the
CDCRecord, append it to records, and raise last_offset to the cdc_id when it
is larger. -/
def scanStep (st : List CDCRecord × Int) (row : CdcRow) : List CDCRecord × Int :=
  let record := rowToRecord row
  (st.1 ++ [record], if record.cdc_id > st.2 then record.cdc_id else st.2)

/-- The fetch loop over the query result, starting from an empty records list
and the current last_offset. -/
def scanRows (rows : List CdcRow) (last_offset : Int) : List CDCRecord × Int :=
  rows.foldl scanStep ([], last_offset)

/-- CDCDataHandler.get_new_cdc_records (src/producer.py lines 71-112), with
the database interaction abstracted as the query outcome: on an exception the
except branch leaves records empty and self.last_offset untouched; on success
the fetch loop runs over the result set.  Returns the records list and the
new last_offset. -/
def getNewCdcRecordsFrom (query : Except String (List CdcRow))
    (last_offset : Int) : List CDCRecord × Int :=
  match query with
  | .error _ => ([], last_offset)
  | .ok rows => scanRows rows last_offset

/-- A full successful scan against the emp_cdc table contents. -/
def get_new_cdc_records (table : List CdcRow) (last_offset : Int) :
    List CDCRecord × Int :=
  getNewCdcRecordsFrom (.ok (sqlNewRows table last_offset)) last_offset

/-! ## JSON serialization (src/employee.py) -/

/-- The JSON values needed for the CDCRecord wire format: integers, strings
and objects with ordered fields (Python dicts keep insertion order). -/
inductive Json where
  | int : Int → Json
  | str : String → Json
  | obj : List (String × Json) → Json

/-- CDCRecord.to_json (src/employee.py lines 59-61): json.dumps of
self.__dict__, an object with the eight fields in attribute insertion
order. -/
def to_json (r : CDCRecord) : Json :=
  .obj [("cdc_id", .int r.cdc_id), ("emp_id", .int r.emp_id),
        ("first_name", .str r.first_name), ("last_name", .str r.last_name),
        ("dob", .str r.dob), ("city", .str r.city),
        ("salary", .int r.salary), ("action", .str r.action)]

/-- Field lookup in a decoded JSON object (dict access by keyword name). -/
def jsonField (fields : List (String × Json)) (key : String) : Option Json :=
  match fields with
  | [] => none
  | (k, v) :: rest => if k = key then some v else jsonField rest key

/-- Read an integer-typed field, with the constructor default used when the
keyword is absent. -/
def intField (fields : List (String × Json)) (key : String) (dflt : Int) :
    Option Int :=
  match jsonField fields key with
  | none => some dflt
  | some (.int i) => some i
  | some _ => none

/-- Read a string-typed field, with the constructor default used when the
keyword is absent. -/
def strField (fields : List (String × Json)) (key : String) (dflt : String) :
    Option String :=
  match jsonField fields key with
  | none => some dflt
  | some (.str s) => some s
  | some _ => none

/-- The keyword names CDCRecord.__init__ accepts. -/
def cdcKeys : List String :=
  ["cdc_id", "emp_id", "first_name", "last_name", "dob", "city", "salary",
   "action"]

/-- CDCRecord.from_json (src/employee.py lines 63-67): json.loads then
CDCRecord(**data).  Keyword expansion fails on a key outside the constructor
signature, fills absent keys with the declared defaults, and binds each field
to the value of its key; a non-object payload or a value of the wrong type
for the declared field type yields none. -/
def from_json (j : Json) : Option CDCRecord :=
  match j with
  | .obj fields =>
    if fields.all (fun kv => kv.1 ∈ cdcKeys) then
      match intField fields "cdc_id" 0, intField fields "emp_id" 0,
            strField fields "first_name" "", strField fields "last_name" "",
            strField fields "dob" "", strField fields "city" "",
            intField fields "salary" 0, strField fields "action" "" with
      | some a, some b, some c, some d, some e, some f, some g, some h =>
        some { cdc_id := a, emp_id := b, first_name := c, last_name := d,
               dob := e, city := f, salary := g, action := h }
      | _, _, _, _, _, _, _, _ => none
    else none
  | _ => none

/-! ## Derived notions and concrete fixtures -/

/-- The value at one key after a per-key stream, read off the last event of
the stream: none after a trailing delete, the last written snapshot after a
trailing insert or update, the previous value if the stream is empty. -/
def lastWrite (v : Option EmployeeRow) (l : List CDCRecord) :
    Option EmployeeRow :=
  match l.getLast? with
  | none => v
  | some r => if r.action = "DELETE" then none else some (rowOf r)

/-- What the spec asserts of a pure-delete event: no attribute content beyond
the entity key, i.e. every attribute field at its empty default. -/
def noSnapshotBeyondKey (r : CDCRecord) : Prop :=
  r.first_name = "" ∧ r.last_name = "" ∧ r.dob = "" ∧ r.city = "" ∧
  r.salary = 0

instance (r : CDCRecord) : Decidable (noSnapshotBeyondKey r) := by
  unfold noSnapshotBeyondKey; infer_instance

/-- Create event of the out-of-order scenario of the spec: key 1 with
salary 1000. -/
def createK1 : CDCRecord :=
  { cdc_id := 1, emp_id := 1, first_name := "John", last_name := "Doe",
    dob := "1990-05-15", city := "New York", salary := 1000,
    action := "INSERT" }

/-- Update event of the out-of-order scenario of the spec: key 1 with
salary 2000. -/
def updateK1 : CDCRecord :=
  { cdc_id := 2, emp_id := 1, first_name := "John", last_name := "Doe",
    dob := "1990-05-15", city := "New York", salary := 2000,
    action := "UPDATE" }

/-- A create event for a second key, for cross-key interleaving. -/
def insertK2 : CDCRecord :=
  { cdc_id := 3, emp_id := 2, first_name := "Jane", last_name := "Smith",
    dob := "1985-08-22", city := "Los Angeles", salary := 82000,
    action := "INSERT" }

/-- A delete event for key 1. -/
def deleteK1 : CDCRecord :=
  { cdc_id := 4, emp_id := 1, first_name := "John", last_name := "Doe",
    dob := "1990-05-15", city := "New York", salary := 1000,
    action := "DELETE" }

/-- A delete event for key 99, a key that never had a record. -/
def deleteK99 : CDCRecord :=
  { cdc_id := 5, emp_id := 99, first_name := "", last_name := "",
    dob := "", city := "", salary := 0, action := "DELETE" }

/-- An event with an action tag the engine does not recognize. -/
def truncateK1 : CDCRecord :=
  { cdc_id := 6, emp_id := 1, first_name := "", last_name := "",
    dob := "", city := "", salary := 0, action := "TRUNCATE" }

/-- A destination table already holding key 1. -/
def demoTable : Table := handle_insert emptyTable createK1

/-- An emp_cdc insert row with cdc_id 1. -/
def johnInsertRow : CdcRow :=
  { cdc_id := 1, emp_id := 1, first_name := "John", last_name := "Doe",
    dob := some "1990-05-15", city := "New York", salary := 75000,
    action := "INSERT" }

/-- An emp_cdc delete row with cdc_id 4 whose OLD-value columns were filled
by the trigger. -/
def bobDeleteRow : CdcRow :=
  { cdc_id := 4, emp_id := 3, first_name := "Bob", last_name := "Johnson",
    dob := some "1992-03-10", city := "Chicago", salary := 68000,
    action := "DELETE" }

/-! ## Helper lemmas: the apply engine acts per key -/

theorem applyAll_cons (db : Table) (r : CDCRecord) (l : List CDCRecord) :
    applyAll db (r :: l) = applyAll (process_message db r) l := rfl

theorem sourceAll_cons (db : Table) (r : CDCRecord) (l : List CDCRecord) :
    sourceAll db (r :: l) = sourceAll (source_apply db r) l := rfl

theorem process_message_other (db : Table) (r : CDCRecord) (k : Int)
    (h : ¬ k = r.emp_id) : process_message db r k = db k := by
  by_cases h1 : r.action = "INSERT"
  · simp [process_message, h1, handle_insert, h]
  · by_cases h2 : r.action = "UPDATE"
    · cases hdb : db r.emp_id with
      | none => simp [process_message, h1, h2, handle_update, hdb,
          handle_insert, h]
      | some row => simp [process_message, h1, h2, handle_update, hdb, h]
    · by_cases h3 : r.action = "DELETE"
      · simp [process_message, h1, h2, h3, handle_delete, h]
      · simp [process_message, h1, h2, h3]

theorem process_message_self (db : Table) (r : CDCRecord) (h : recognized r) :
    process_message db r r.emp_id =
      if r.action = "DELETE" then none else some (rowOf r) := by
  rcases h with h1 | h2 | h3
  · simp [process_message, h1, handle_insert]
  · cases hdb : db r.emp_id with
    | none => simp [process_message, h2, handle_update, hdb, handle_insert]
    | some row => simp [process_message, h2, handle_update, hdb]
  · simp [process_message, h3, handle_delete]

theorem source_apply_other (db : Table) (r : CDCRecord) (k : Int)
    (h : ¬ k = r.emp_id) : source_apply db r k = db k := by
  unfold source_apply
  split_ifs <;> simp [h]

theorem source_apply_self (db : Table) (r : CDCRecord) (h : recognized r) :
    source_apply db r r.emp_id =
      if r.action = "DELETE" then none else some (rowOf r) := by
  rcases h with h1 | h2 | h3
  · simp [source_apply, h1]
  · simp [source_apply, h2]
  · simp [source_apply, h3]

theorem lastWrite_cons (v : Option EmployeeRow) (a : CDCRecord)
    (l : List CDCRecord) :
    lastWrite v (a :: l) =
      lastWrite (if a.action = "DELETE" then none else some (rowOf a)) l := by
  cases l with
  | nil => rfl
  | cons b l =>
    cases hgl : (b :: l).getLast? with
    | none =>
      exact absurd (List.getLast?_eq_none_iff.mp hgl) (List.cons_ne_nil _ _)
    | some x => simp [lastWrite, List.getLast?_cons_cons, hgl]

theorem keyFilter_cons (k : Int) (r : CDCRecord) (l : List CDCRecord) :
    keyFilter k (r :: l) =
      if r.emp_id = k then r :: keyFilter k l else keyFilter k l := by
  by_cases h : r.emp_id = k <;> simp [keyFilter, List.filter_cons, h]

theorem applyAll_eq_lastWrite (l : List CDCRecord) (k : Int) :
    ∀ db : Table, (∀ r ∈ l, r.emp_id = k → recognized r) →
      applyAll db l k = lastWrite (db k) (keyFilter k l) := by
  induction l with
  | nil => intro db _; rfl
  | cons r l ih =>
    intro db h
    have hl : ∀ x ∈ l, x.emp_id = k → recognized x := by
      intro x hx; exact h x (List.mem_cons_of_mem _ hx)
    rw [applyAll_cons, ih (process_message db r) hl, keyFilter_cons]
    by_cases heq : r.emp_id = k
    · subst heq
      rw [if_pos rfl, lastWrite_cons,
        process_message_self db r (h r (List.mem_cons_self _ _) rfl)]
    · rw [if_neg heq, process_message_other db r k (fun hk => heq hk.symm)]

theorem sourceAll_eq_lastWrite (l : List CDCRecord) (k : Int) :
    ∀ db : Table, (∀ r ∈ l, r.emp_id = k → recognized r) →
      sourceAll db l k = lastWrite (db k) (keyFilter k l) := by
  induction l with
  | nil => intro db _; rfl
  | cons r l ih =>
    intro db h
    have hl : ∀ x ∈ l, x.emp_id = k → recognized x := by
      intro x hx; exact h x (List.mem_cons_of_mem _ hx)
    rw [sourceAll_cons, ih (source_apply db r) hl, keyFilter_cons]
    by_cases heq : r.emp_id = k
    · subst heq
      rw [if_pos rfl, lastWrite_cons,
        source_apply_self db r (h r (List.mem_cons_self _ _) rfl)]
    · rw [if_neg heq, source_apply_other db r k (fun hk => heq hk.symm)]

/-! ## Helper lemmas: the tailer scan -/

theorem if_lt_eq_max (a b : Int) : (if a < b then b else a) = max a b := by
  rcases lt_or_ge a b with h | h
  · rw [if_pos h, max_eq_right h.le]
  · rw [if_neg (not_lt.mpr h), max_eq_left h]

theorem foldl_scanStep (rows : List CdcRow) :
    ∀ (acc : List CDCRecord) (off : Int),
      rows.foldl scanStep (acc, off) =
        (acc ++ rows.map rowToRecord,
         (rows.map (fun row => row.cdc_id)).foldl max off) := by
  induction rows with
  | nil => intro acc off; simp
  | cons row rows ih =>
    intro acc off
    rw [List.foldl_cons]
    show rows.foldl scanStep
        (acc ++ [rowToRecord row],
         if off < (rowToRecord row).cdc_id then (rowToRecord row).cdc_id
         else off) = _
    rw [ih, if_lt_eq_max]
    simp [rowToRecord]

theorem scanRows_fst (rows : List CdcRow) (off : Int) :
    (scanRows rows off).1 = rows.map rowToRecord := by
  rw [scanRows, foldl_scanStep]; simp

theorem scanRows_snd (rows : List CdcRow) (off : Int) :
    (scanRows rows off).2 =
      (rows.map (fun row => row.cdc_id)).foldl max off := by
  rw [scanRows, foldl_scanStep]

theorem le_foldl_max_init (l : List Int) : ∀ a : Int, a ≤ l.foldl max a := by
  induction l with
  | nil => intro a; exact le_refl a
  | cons x l ih => intro a; exact le_trans (le_max_left a x) (ih (max a x))

theorem le_foldl_max_of_mem (l : List Int) :
    ∀ (a x : Int), x ∈ l → x ≤ l.foldl max a := by
  induction l with
  | nil => intro a x hx; exact absurd hx (List.not_mem_nil x)
  | cons y l ih =>
    intro a x hx
    rw [List.foldl_cons]
    rcases List.mem_cons.mp hx with rfl | hx
    · exact le_trans (le_max_right a x) (le_foldl_max_init l (max a x))
    · exact ih (max a y) x hx

theorem foldl_max_mem (l : List Int) :
    ∀ a : Int, l.foldl max a = a ∨ l.foldl max a ∈ l := by
  induction l with
  | nil => intro a; exact Or.inl rfl
  | cons x l ih =>
    intro a
    rw [List.foldl_cons]
    rcases ih (max a x) with h | h
    · rw [h]
      rcases max_choice a x with h2 | h2
      · exact Or.inl h2
      · rw [h2]; exact Or.inr (List.mem_cons_self x l)
    · exact Or.inr (List.mem_cons_of_mem _ h)

theorem sqlNewRows_sorted (table : List CdcRow) (off : Int) :
    (sqlNewRows table off).Pairwise byCdcId :=
  List.sorted_insertionSort byCdcId _

theorem mem_sqlNewRows {table : List CdcRow} {off : Int} {row : CdcRow}
    (h : row ∈ sqlNewRows table off) : row ∈ table ∧ off < row.cdc_id := by
  have hmem := (List.perm_insertionSort byCdcId
    (table.filter (fun row => off < row.cdc_id))).mem_iff.mp h
  exact ⟨List.mem_of_mem_filter hmem, by simpa using List.of_mem_filter hmem⟩

/-! ## Helper lemmas: order-preserving at-least-once delivery -/

theorem Covers.eq_nil {d : List CDCRecord} (h : Covers d []) : d = [] := by
  cases h; rfl

theorem Covers.ne_nil {d s : List CDCRecord} (h : Covers d s) (hs : s ≠ []) :
    d ≠ [] := by
  cases h with
  | nil => exact absurd rfl hs
  | dup a h => exact List.cons_ne_nil _ _
  | step a h => exact List.cons_ne_nil _ _

theorem Covers.mem_of_mem {d s : List CDCRecord} (h : Covers d s) :
    ∀ x ∈ d, x ∈ s := by
  induction h with
  | nil => intro x hx; exact absurd hx (List.not_mem_nil x)
  | dup a h ih =>
    intro x hx
    rcases List.mem_cons.mp hx with rfl | hx
    · exact List.mem_cons_self _ _
    · exact ih x hx
  | step a h ih =>
    intro x hx
    rcases List.mem_cons.mp hx with rfl | hx
    · exact List.mem_cons_self _ _
    · exact List.mem_cons_of_mem _ (ih x hx)

theorem Covers.last_eq {d s : List CDCRecord} (h : Covers d s) (hs : s ≠ []) :
    d.getLast? = s.getLast? := by
  induction h with
  | nil => exact absurd rfl hs
  | dup a h ih =>
    obtain ⟨x, d, rfl⟩ := List.exists_cons_of_ne_nil
      (h.ne_nil (List.cons_ne_nil _ _))
    rw [List.getLast?_cons_cons, ih (List.cons_ne_nil _ _)]
  | step a h ih =>
    rename_i d s
    cases s with
    | nil => rw [h.eq_nil]
    | cons b s2 =>
      obtain ⟨x, d2, rfl⟩ := List.exists_cons_of_ne_nil
        (h.ne_nil (List.cons_ne_nil _ _))
      rw [List.getLast?_cons_cons, List.getLast?_cons_cons,
        ih (List.cons_ne_nil _ _)]

/-! ## Claim theorems -/

/-- C3: for every replica state and every Create event, applying the Create
twice in a row yields the same state as applying it once; likewise for every
Delete event (the apply engine is idempotent for Create and Delete). -/
theorem create_delete_idempotent (db : Table) (r : CDCRecord) :
    (r.action = "INSERT" →
      process_message (process_message db r) r = process_message db r) ∧
    (r.action = "DELETE" →
      process_message (process_message db r) r = process_message db r) := by
  constructor
  · intro h
    funext k
    by_cases hk : k = r.emp_id <;>
      simp [process_message, h, handle_insert, hk]
  · intro h
    funext k
    by_cases hk : k = r.emp_id <;>
      simp [process_message, h, handle_delete, hk]

/-- Witness for C3 at a concrete table and concrete Create/Delete events. -/
theorem create_delete_idempotent_witness :
    (process_message (process_message demoTable createK1) createK1
      = process_message demoTable createK1) ∧
    (process_message (process_message demoTable deleteK1) deleteK1
      = process_message demoTable deleteK1) :=
  ⟨(create_delete_idempotent demoTable createK1).1 rfl,
   (create_delete_idempotent demoTable deleteK1).2 rfl⟩

/-- C5: applying a Delete event whose entityKey has no ReplicaRecord (zero
rows affected) completes without error and leaves the replica state
unchanged. -/
theorem delete_absent_noop (db : Table) (r : CDCRecord)
    (hact : r.action = "DELETE") (habs : db r.emp_id = none) :
    process_message db r = db := by
  funext k
  by_cases hk : k = r.emp_id <;>
    simp [process_message, hact, handle_delete, hk, habs]

/-- Witness for C5: deleting key 99 from a table that only holds key 1. -/
theorem delete_absent_noop_witness :
    demoTable deleteK99.emp_id = none ∧
    process_message demoTable deleteK99 = demoTable :=
  ⟨by decide, delete_absent_noop demoTable deleteK99 rfl (by decide)⟩

/-- C8: applying an event whose action is none of INSERT, UPDATE, DELETE
returns with the replica state unchanged — no row is inserted, updated or
deleted. -/
theorem unknown_action_skipped (db : Table) (r : CDCRecord)
    (h : ¬ recognized r) : process_message db r = db := by
  unfold recognized at h
  push_neg at h
  obtain ⟨h1, h2, h3⟩ := h
  simp [process_message, h1, h2, h3]

/-- Witness for C8 at a concrete TRUNCATE-tagged event. -/
theorem unknown_action_skipped_witness :
    ¬ recognized truncateK1 ∧
    process_message demoTable truncateK1 = demoTable :=
  ⟨by decide, unknown_action_skipped demoTable truncateK1 (by decide)⟩

/-- C10: for every CDCRecord, deserializing its serialization round-trips:
from_json (to_json r) yields a record whose fields all equal those of r. -/
theorem from_json_to_json (r : CDCRecord) : from_json (to_json r) = some r := by
  cases r
  rfl

/-- C7: when the change-log query raises an error, the scan is abandoned
without advancing the watermark — the returned state keeps the old
last_offset and emits no records — and the next successful scan from that
watermark behaves exactly as a scan from the pre-failure watermark. -/
theorem failed_scan_preserves_watermark (msg : String) (off : Int)
    (rows : List CdcRow) :
    getNewCdcRecordsFrom (.error msg) off = ([], off) ∧
    getNewCdcRecordsFrom (.ok rows)
        ((getNewCdcRecordsFrom (.error msg) off).2)
      = getNewCdcRecordsFrom (.ok rows) off :=
  ⟨rfl, rfl⟩

/-- C6: a completed scan over a batch of rows with identifiers strictly
greater than the watermark leaves the watermark unchanged when the batch is
empty, and otherwise sets it to the maximum identifier observed. -/
theorem scan_watermark_max (rows : List CdcRow) (off : Int)
    (h : ∀ row ∈ rows, off < row.cdc_id) :
    (rows = [] → (scanRows rows off).2 = off) ∧
    (rows ≠ [] →
      (rows.map (fun row => row.cdc_id)).maximum
        = some ((scanRows rows off).2)) := by
  constructor
  · intro hnil
    subst hnil
    rfl
  · intro hne
    rw [scanRows_snd]
    apply List.maximum_eq_coe_iff.mpr
    constructor
    · rcases foldl_max_mem (rows.map (fun row => row.cdc_id)) off with
        hcase | hcase
      · obtain ⟨row0, hrow0⟩ := List.exists_mem_of_ne_nil rows hne
        have h1 : row0.cdc_id ≤
            (rows.map (fun row => row.cdc_id)).foldl max off :=
          le_foldl_max_of_mem _ off _
            (List.mem_map_of_mem (fun row => row.cdc_id) hrow0)
        rw [hcase] at h1
        exact absurd (lt_of_lt_of_le (h row0 hrow0) h1) (lt_irrefl off)
      · exact hcase
    · intro a ha
      exact le_foldl_max_of_mem _ off a ha

/-- Witness for C6 at a concrete two-row batch above watermark 0. -/
theorem scan_watermark_max_witness :
    ([johnInsertRow, bobDeleteRow].map (fun row => row.cdc_id)).maximum
      = some ((scanRows [johnInsertRow, bobDeleteRow] 0).2) :=
  (scan_watermark_max [johnInsertRow, bobDeleteRow] 0 (by decide)).2
    (by decide)

/-- C4: within a single scan the tailer produces events in strictly
ascending cdc_id order, and — for any scan, hence across any succession of
scans — it never emits an event whose sequence is at or below the watermark
it held at the start of that scan. -/
theorem scan_ascending_above_watermark (table : List CdcRow)
    (off : Int) (hnodup : (table.map (fun row => row.cdc_id)).Nodup) :
    (get_new_cdc_records table off).1.Pairwise
        (fun a b => a.cdc_id < b.cdc_id) ∧
    ∀ rec ∈ (get_new_cdc_records table off).1, off < rec.cdc_id := by
  have hfst : (get_new_cdc_records table off).1
      = (sqlNewRows table off).map rowToRecord := scanRows_fst _ _
  constructor
  · rw [hfst]
    apply List.pairwise_map.mpr
    have hs := sqlNewRows_sorted table off
    have hnd : ((sqlNewRows table off).map (fun row => row.cdc_id)).Nodup := by
      have hperm : (sqlNewRows table off).Perm
          (table.filter (fun row => off < row.cdc_id)) :=
        List.perm_insertionSort byCdcId _
      have hsub : ((table.filter (fun row => off < row.cdc_id)).map
          (fun row => row.cdc_id)).Sublist
            (table.map (fun row => row.cdc_id)) :=
        (List.filter_sublist _).map _
      exact ((hperm.map _).nodup_iff).mpr (hnodup.sublist hsub)
    have hne : (sqlNewRows table off).Pairwise
        (fun a b => ¬ a.cdc_id = b.cdc_id) := List.pairwise_map.mp hnd
    exact (hs.and hne).imp (fun hab => lt_of_le_of_ne hab.1 hab.2)
  · intro rec hrec
    rw [hfst] at hrec
    obtain ⟨row, hrow, rfl⟩ := List.mem_map.mp hrec
    exact (mem_sqlNewRows hrow).2

/-- Witness for C4: a scan over a two-row table stored out of cdc_id
order. -/
theorem scan_ascending_above_watermark_witness :
    (([bobDeleteRow, johnInsertRow] : List CdcRow).map
        (fun row => row.cdc_id)).Nodup ∧
    ((get_new_cdc_records [bobDeleteRow, johnInsertRow] 0).1.Pairwise
        (fun a b => a.cdc_id < b.cdc_id) ∧
     ∀ rec ∈ (get_new_cdc_records [bobDeleteRow, johnInsertRow] 0).1,
       (0 : Int) < rec.cdc_id) :=
  ⟨by decide, scan_ascending_above_watermark [bobDeleteRow, johnInsertRow] 0
    (by decide)⟩

/-- C2 counterexample: delivering Update(key=1, salary=2000) before its
Create(key=1, salary=1000) leaves key 1 at salary 1000, because the Create
upsert overwrites the fallback-inserted row; the final state therefore
differs from in-order delivery, contradicting the claimed outcome. -/
theorem update_before_create_diverges :
    (applyAll emptyTable [updateK1, createK1] 1).map (fun row => row.salary)
      = some 1000 ∧
    ¬ (applyAll emptyTable [updateK1, createK1] 1
        = applyAll emptyTable [createK1, updateK1] 1) := by
  constructor
  · decide
  · intro hcontra
    exact absurd hcontra (by decide)

/-- C2 amended: applying an Update whose entityKey has no ReplicaRecord does
insert a record built from the full snapshot of the Update, but in the
scenario Update(key=1, salary=2000) delivered before Create(key=1,
salary=1000) the engine ends with salary 1000 for key 1, whereas in-order
delivery ends with salary 2000. -/
theorem update_absent_inserts_snapshot (db : Table) (r : CDCRecord)
    (hact : r.action = "UPDATE") (habs : db r.emp_id = none) :
    process_message db r r.emp_id = some (rowOf r) ∧
    (applyAll emptyTable [updateK1, createK1] 1).map (fun row => row.salary)
      = some 1000 ∧
    (applyAll emptyTable [createK1, updateK1] 1).map (fun row => row.salary)
      = some 2000 := by
  refine ⟨?_, by decide, by decide⟩
  simp [process_message, hact, handle_update, habs, handle_insert]

/-- Witness for the amended C2: the Update applied to the empty replica. -/
theorem update_absent_inserts_snapshot_witness :
    process_message emptyTable updateK1 updateK1.emp_id
      = some (rowOf updateK1) ∧
    (applyAll emptyTable [updateK1, createK1] 1).map (fun row => row.salary)
      = some 1000 ∧
    (applyAll emptyTable [createK1, updateK1] 1).map (fun row => row.salary)
      = some 2000 :=
  update_absent_inserts_snapshot emptyTable updateK1 rfl rfl

/-- C9 counterexample: the event the tailer produces for a pure-delete
change-log row still carries the full attribute snapshot recorded by the
trigger (the OLD values), not just the entity key. -/
theorem delete_event_not_snapshot_free :
    ¬ (∀ rec ∈ (get_new_cdc_records [bobDeleteRow] 0).1,
        rec.action = "DELETE" → noSnapshotBeyondKey rec) := by
  decide

/-- C9 amended: for every Delete change-log row the scan picks up, the
produced ChangeEvent carries the full attribute snapshot of the deleted row
(the OLD values of name, city and salary recorded by the trigger) along with
the entity key. -/
theorem delete_event_carries_old_snapshot (table : List CdcRow) (off : Int)
    (row : CdcRow) (hrow : row ∈ sqlNewRows table off)
    (hdel : row.action = "DELETE") :
    rowToRecord row ∈ (get_new_cdc_records table off).1 ∧
    (rowToRecord row).emp_id = row.emp_id ∧
    (rowToRecord row).first_name = row.first_name ∧
    (rowToRecord row).last_name = row.last_name ∧
    (rowToRecord row).city = row.city ∧
    (rowToRecord row).salary = row.salary ∧
    (rowToRecord row).action = "DELETE" := by
  refine ⟨?_, rfl, rfl, rfl, rfl, rfl, hdel⟩
  rw [show (get_new_cdc_records table off).1
      = (sqlNewRows table off).map rowToRecord from scanRows_fst _ _]
  exact List.mem_map_of_mem _ hrow

/-- Witness for the amended C9 at a concrete delete row. -/
theorem delete_event_carries_old_snapshot_witness :
    rowToRecord bobDeleteRow ∈ (get_new_cdc_records [bobDeleteRow] 0).1 ∧
    (rowToRecord bobDeleteRow).emp_id = bobDeleteRow.emp_id ∧
    (rowToRecord bobDeleteRow).first_name = bobDeleteRow.first_name ∧
    (rowToRecord bobDeleteRow).last_name = bobDeleteRow.last_name ∧
    (rowToRecord bobDeleteRow).city = bobDeleteRow.city ∧
    (rowToRecord bobDeleteRow).salary = bobDeleteRow.salary ∧
    (rowToRecord bobDeleteRow).action = "DELETE" :=
  delete_event_carries_old_snapshot [bobDeleteRow] 0 bobDeleteRow
    (by decide) rfl

/-- C1: for every finite change log of Create/Update/Delete events and every
delivered stream whose per-key sub-streams preserve the original per-key
order (duplicates allowed, arbitrary cross-key interleaving allowed), folding
the apply engine over the delivered stream from the empty replica gives every
key the same final state as replaying the log on the source from empty. -/
theorem replica_converges_per_key (log delivered : List CDCRecord)
    (hact : ∀ r ∈ log, recognized r)
    (hcov : ∀ k : Int, Covers (keyFilter k delivered) (keyFilter k log))
    (k : Int) :
    applyAll emptyTable delivered k = sourceAll emptyTable log k := by
  have hd : ∀ r ∈ delivered, r.emp_id = k → recognized r := by
    intro r hr hk
    have h1 : r ∈ keyFilter k delivered := by
      simp [keyFilter, List.mem_filter, hr, hk]
    exact hact r (List.mem_of_mem_filter ((hcov k).mem_of_mem r h1))
  rw [applyAll_eq_lastWrite delivered k emptyTable hd,
      sourceAll_eq_lastWrite log k emptyTable (fun r hr _ => hact r hr)]
  have hlast : (keyFilter k delivered).getLast?
      = (keyFilter k log).getLast? := by
    by_cases hkl : keyFilter k log = []
    · have h0 := hcov k
      rw [hkl] at h0
      rw [h0.eq_nil, hkl]
    · exact (hcov k).last_eq hkl
  unfold lastWrite
  rw [hlast]

/-- Witness for C1: a three-event log on keys 1 and 2, delivered with the
keys interleaved differently and the first Create duplicated. -/
theorem replica_converges_per_key_witness :
    applyAll emptyTable [insertK2, createK1, createK1, updateK1] 1
      = sourceAll emptyTable [createK1, insertK2, updateK1] 1 :=
  replica_converges_per_key [createK1, insertK2, updateK1]
    [insertK2, createK1, createK1, updateK1]
    (by decide)
    (fun k => by
      by_cases h1 : (1 : Int) = k
      · subst h1
        have hd1 : keyFilter 1 [insertK2, createK1, createK1, updateK1]
            = [createK1, createK1, updateK1] := by decide
        have hl1 : keyFilter 1 [createK1, insertK2, updateK1]
            = [createK1, updateK1] := by decide
        rw [hd1, hl1]
        exact Covers.dup createK1 (Covers.step createK1
          (Covers.step updateK1 Covers.nil))
      · by_cases h2 : (2 : Int) = k
        · subst h2
          have hd2 : keyFilter 2 [insertK2, createK1, createK1, updateK1]
              = [insertK2] := by decide
          have hl2 : keyFilter 2 [createK1, insertK2, updateK1]
              = [insertK2] := by decide
          rw [hd2, hl2]
          exact Covers.step insertK2 Covers.nil
        · have hd : keyFilter k [insertK2, createK1, createK1, updateK1]
              = [] := by
            simp [keyFilter, insertK2, createK1, updateK1, h1, h2]
          have hl : keyFilter k [createK1, insertK2, updateK1] = [] := by
            simp [keyFilter, insertK2, createK1, updateK1, h1, h2]
          rw [hd, hl]
          exact Covers.nil)
    1
